import Mathlib

/-!
Shallow embedding of the openseat course monitor (Go sources): the runtime
configuration, the scraping boundary, the per-course tracking state, the poll
cycle and the outer monitoring loop of the function Run, together with
theorems about their behaviour.

The HTTP layer (fetchDocument) and the email transport are external
collaborators; they are passed in as oracle functions.  Everything the
program itself computes is translated directly from the source.
-/

/-- Virginia Tech timetable endpoint (constant DefaultTimetableURL). -/
def DefaultTimetableURL : String :=
  "https://selfservice.banner.vt.edu/ssb/HZSKVTSC.P_ProcRequest"

/-- Runtime configuration of the monitor (struct Config). -/
structure Config where
  crns : List String
  email : String
  checkInterval : Nat
  term : String
  campus : String
  baseURL : String
deriving Repr, DecidableEq

/-- Config.getBaseURL: the configured URL if nonempty, else the default. -/
def Config.getBaseURL (c : Config) : String :=
  if c.baseURL ≠ "" then c.baseURL else DefaultTimetableURL

/-- Form payload (url.Values) as an association list. -/
abbrev Payload := List (String × List String)

/-- Config.buildPayload: the form data for one timetable search request. -/
def Config.buildPayload (c : Config) (crn : String) (openOnly : Bool) : Payload :=
  let rawMap : Payload :=
    [("CAMPUS", [c.campus]), ("TERMYEAR", [c.term]), ("CORE_CODE", ["AR%"]),
     ("subj_code", ["%"]), ("SCHDTYPE", ["%"]), ("CRSE_NUMBER", [""]),
     ("crn", [crn]), ("sess_code", ["%"]), ("BTN_PRESSED", ["FIND class sections"]),
     ("inst_name", [""]), ("disp_comments_in", [""])]
  if openOnly then rawMap ++ [("open_only", ["on"])] else rawMap

/-- The parts of a fetched HTML document the monitor inspects: the text of
the data-entry table and, per table row, the text of the first and the third
cell. -/
structure Doc where
  tableText : String
  rows : List (String × String)
deriving Repr, DecidableEq

/-- The HTTP boundary (fetchDocument): posting a payload to a URL either
fails (network error, non-200 status, unparseable HTML) or yields a parsed
document. -/
abbrev PostFn := String → Payload → Except String Doc

/-- Character-list version of a string starting with a given sequence. -/
def startsWithChars : List Char → List Char → Bool
  | [], _ => true
  | _ :: _, [] => false
  | a :: sub, b :: rest => a == b && startsWithChars sub rest

/-- Character-list substring search. -/
def containsChars (sub : List Char) : List Char → Bool
  | [] => sub.isEmpty
  | b :: rest => startsWithChars sub (b :: rest) || containsChars sub rest

/-- strings.Contains from the Go standard library. -/
def strContains (s sub : String) : Bool :=
  containsChars sub.data s.data

/-- strings.TrimSpace from the Go standard library. -/
def trimSpace (s : String) : String :=
  ⟨((s.data.dropWhile Char.isWhitespace).reverse.dropWhile Char.isWhitespace).reverse⟩

/-- Config.checkSectionOpen: availability lookup for one CRN through the HTTP
boundary; posts to getBaseURL() with the open-only filter and reports whether
the CRN appears in the result table. -/
def Config.checkSectionOpen (c : Config) (post : PostFn) (crn : String) : Except String Bool :=
  match post c.getBaseURL (c.buildPayload crn true) with
  | .error e => .error e
  | .ok doc => .ok (strContains doc.tableText crn)

/-- Config.getCourseName: descriptive lookup for one CRN; posts to the raw
BaseURL field and scans the table rows for the CRN, keeping the trimmed title
cell of the last matching row, failing when no row matches. -/
def Config.getCourseName (c : Config) (post : PostFn) (crn : String) : Except String String :=
  match post c.baseURL (c.buildPayload crn false) with
  | .error e => .error e
  | .ok doc =>
    let courseName := doc.rows.foldl
      (fun acc row => if strContains row.1 crn then trimSpace row.2 else acc) ""
    if courseName = "" then .error ("course not found for CRN: " ++ crn) else .ok courseName

/-- One monitored course (struct CourseStatus). -/
structure CourseStatus where
  crn : String
  name : String
  found : Bool
deriving Repr, DecidableEq

/-- The course-list construction in Run (lines 341-350): resolve each CRN in
configuration order, skip the ones whose name lookup fails, append the rest
with Found = false. -/
def initCourses (post : PostFn) (cfg : Config) : List CourseStatus :=
  cfg.crns.foldl
    (fun acc crn =>
      match cfg.getCourseName post crn with
      | .error _ => acc
      | .ok name => acc ++ [{ crn := crn, name := name, found := false }]) []

/-- The outcome of resolving a single identifier (used to characterise
initCourses). -/
def resolveCourse (post : PostFn) (cfg : Config) (crn : String) : Option CourseStatus :=
  match cfg.getCourseName post crn with
  | .error _ => none
  | .ok name => some { crn := crn, name := name, found := false }

/-- Run lines 341-354: the initial tracked set, or the no-valid-CRNs error. -/
def runInit (post : PostFn) (cfg : Config) : Except String (List CourseStatus) :=
  let courses := initCourses post cfg
  if courses.length = 0 then .error "no valid CRNs to monitor" else .ok courses

/-- Which send path the code used for an email: the EmailSender value selected
from RunOptions at lines 321-324, or the package-level sendEmail function that
reads RESEND_API_KEY from the environment. -/
inductive SenderId where
  | injected
  | globalEnv
deriving Repr, DecidableEq

/-- Observable actions of the monitoring loop: the availability lookup for an
entry, the printed per-entry error line, the printed seat-available box, the
email send attempt (tagged with the send path the code used), and the printed
sent-confirmation line.  The idx field is the position of the entry in the
course list. -/
inductive Event where
  | checkCall (idx : Nat) (crn : String)
  | checkErrorLine (idx : Nat) (crn : String) (errMsg : String)
  | seatFoundBox (idx : Nat) (crn : String) (name : String)
  | emailCall (sender : SenderId) (idx : Nat) (toAddr : String) (subject : String) (body : String)
  | sentLine (idx : Nat) (toAddr : String)
deriving Repr, DecidableEq

/-- Email transport behaviour: send(to, subject, body) succeeds or fails. -/
abbrev SendFn := String → String → String → Except String Unit

/-- The loop body of Run for one entry of the course slice (lines 365-400):
skip it when already found; otherwise look the CRN up; on a lookup error print
the error line and continue; on an open seat set Found, decrement the
remaining counter, print the box and, when an email address is configured,
call the package-level sendEmail (discarding its result, as the source does at
line 394) and print the sent line. -/
def checkCourse (checkOpen : String → Except String Bool) (send : SendFn)
    (email : String) (i : Nat) (c : CourseStatus) (remaining : Nat) :
    CourseStatus × Nat × List Event :=
  if c.found then
    (c, remaining, [])
  else
    match checkOpen c.crn with
    | .error e => (c, remaining, [.checkCall i c.crn, .checkErrorLine i c.crn e])
    | .ok false => (c, remaining, [.checkCall i c.crn])
    | .ok true =>
      let c' : CourseStatus := { c with found := true }
      let baseEvents := [Event.checkCall i c.crn, Event.seatFoundBox i c.crn c.name]
      if email ≠ "" then
        let subject := "VT Course Section Open!"
        let body := "OPEN SEAT: " ++ c.name ++ " (CRN: " ++ c.crn ++ ")"
        let _sendResult := send email subject body
        (c', remaining - 1,
          baseEvents ++ [Event.emailCall .globalEnv i email subject body, Event.sentLine i email])
      else
        (c', remaining - 1, baseEvents)

/-- Result of one full sweep over the course slice. -/
structure CycleResult where
  courses : List CourseStatus
  remaining : Nat
  trace : List Event
deriving Repr, DecidableEq

/-- The inner for-loop of Run (lines 365-400) from position i onward,
threading the remaining counter through the entries in slice order. -/
def runCycleGo (checkOpen : String → Except String Bool) (send : SendFn) (email : String) :
    Nat → List CourseStatus → Nat → CycleResult
  | _, [], remaining => ⟨[], remaining, []⟩
  | i, c :: rest, remaining =>
    let step := checkCourse checkOpen send email i c remaining
    let tail := runCycleGo checkOpen send email (i + 1) rest step.2.1
    ⟨step.1 :: tail.courses, tail.remaining, step.2.2 ++ tail.trace⟩

/-- One complete poll cycle over the whole course slice. -/
def runCycle (checkOpen : String → Except String Bool) (send : SendFn) (email : String)
    (courses : List CourseStatus) (remaining : Nat) : CycleResult :=
  runCycleGo checkOpen send email 0 courses remaining

/-- Result of running the outer loop of Run: done is true when the loop hit
the return at line 404 (remaining == 0 right after a cycle), and false when
the fuel ran out with the loop still going. -/
structure LoopResult where
  done : Bool
  courses : List CourseStatus
  remaining : Nat
  trace : List Event
deriving Repr, DecidableEq

/-- The outer for-loop of Run (lines 362-425): run a cycle at the current
attempt number; return when the remaining counter is zero; otherwise wait the
configured interval (not modelled: time only) and run the next cycle.  The
fuel bounds how many cycles we unfold. -/
def runLoop (checkOpen : Nat → String → Except String Bool) (send : SendFn) (email : String) :
    Nat → Nat → List CourseStatus → Nat → LoopResult
  | 0, _, courses, remaining => ⟨false, courses, remaining, []⟩
  | fuel + 1, attempt, courses, remaining =>
    let cyc := runCycle (checkOpen attempt) send email courses remaining
    if cyc.remaining = 0 then
      ⟨true, cyc.courses, cyc.remaining, cyc.trace⟩
    else
      let rest := runLoop checkOpen send email fuel (attempt + 1) cyc.courses cyc.remaining
      ⟨rest.done, rest.courses, rest.remaining, cyc.trace ++ rest.trace⟩

/-- The state (course slice, remaining counter) after k further poll cycles
starting at the given attempt number. -/
def iterCycles (checkOpen : Nat → String → Except String Bool) (send : SendFn) (email : String) :
    Nat → Nat → List CourseStatus × Nat → List CourseStatus × Nat
  | 0, _, s => s
  | k + 1, attempt, s =>
    let cyc := runCycle (checkOpen attempt) send email s.1 s.2
    iterCycles checkOpen send email k (attempt + 1) (cyc.courses, cyc.remaining)

/-- The caller-supplied options of Run (struct RunOptions); the config path is
replaced by the parsed Config, since file reading is outside the embedding. -/
structure RunOptions where
  emailSender : Option SendFn

/-- Outcome of Run after loading the configuration. -/
inductive RunOutcome where
  | noValidCRNs
  | loopResult (r : LoopResult)
deriving Repr, DecidableEq

/-- Run (lines 314-426) after a successful config load: select the injected
email sender or build the default one (lines 321-324; the selected value is
not referenced again in the body, exactly as in the source), resolve the
course names, fail when none resolved, then run the monitoring loop, whose
availability lookups go through Config.checkSectionOpen and whose email sends
go through the package-level sendEmail path (line 394). -/
def RunModel (post : Nat → PostFn) (globalSend : SendFn) (opts : RunOptions)
    (cfg : Config) (fuel : Nat) : RunOutcome :=
  let _emailSender := opts.emailSender.getD globalSend
  let courses := initCourses (post 0) cfg
  if courses.length = 0 then
    .noValidCRNs
  else
    .loopResult (runLoop (fun attempt crn => cfg.checkSectionOpen (post attempt) crn)
      globalSend cfg.email fuel 1 courses courses.length)

/-! ### Analysis definitions

Decompositions of the loop body used to state and prove the properties:
the state part, the counter decrement and the emitted events of one entry,
and counting functions over event traces. -/

/-- The state update a poll cycle applies to one entry. -/
def stepState (checkOpen : String → Except String Bool) (c : CourseStatus) : CourseStatus :=
  if c.found then c
  else
    match checkOpen c.crn with
    | .ok true => { c with found := true }
    | _ => c

/-- How much one entry decrements the remaining counter in a cycle. -/
def remDelta (checkOpen : String → Except String Bool) (c : CourseStatus) : Nat :=
  if c.found then 0
  else
    match checkOpen c.crn with
    | .ok true => 1
    | _ => 0

/-- The events one entry emits in a cycle. -/
def eventsFor (checkOpen : String → Except String Bool) (email : String)
    (i : Nat) (c : CourseStatus) : List Event :=
  if c.found then []
  else
    match checkOpen c.crn with
    | .error e => [.checkCall i c.crn, .checkErrorLine i c.crn e]
    | .ok false => [.checkCall i c.crn]
    | .ok true =>
      if email ≠ "" then
        [.checkCall i c.crn, .seatFoundBox i c.crn c.name,
         .emailCall .globalEnv i email "VT Course Section Open!"
           ("OPEN SEAT: " ++ c.name ++ " (CRN: " ++ c.crn ++ ")"),
         .sentLine i email]
      else
        [.checkCall i c.crn, .seatFoundBox i c.crn c.name]

/-- The full event trace of one cycle over a course slice, numbering the
entries from i onward. -/
def cycleTrace (checkOpen : String → Except String Bool) (email : String) :
    Nat → List CourseStatus → List Event
  | _, [] => []
  | i, c :: rest => eventsFor checkOpen email i c ++ cycleTrace checkOpen email (i + 1) rest

/-- Total decrement of the remaining counter over one cycle. -/
def cycleDelta (checkOpen : String → Except String Bool) (cs : List CourseStatus) : Nat :=
  (cs.map (remDelta checkOpen)).sum

/-- Number of entries whose Found flag is still false. -/
def countPending (cs : List CourseStatus) : Nat :=
  cs.countP (fun c => !c.found)

/-- The entry index an event carries. -/
def eventIdx : Event → Nat
  | .checkCall i _ => i
  | .checkErrorLine i _ _ => i
  | .seatFoundBox i _ _ => i
  | .emailCall _ i _ _ _ => i
  | .sentLine i _ => i

/-- Whether an event is an email send attempt. -/
def isEmailCall : Event → Bool
  | .emailCall _ _ _ _ _ => true
  | _ => false

/-- Whether an event is an email send attempt through the injected sender. -/
def isInjectedEmailCall : Event → Bool
  | .emailCall .injected _ _ _ _ => true
  | _ => false

/-- Count of events with the given entry index satisfying a predicate. -/
def countIdxWith (p : Event → Bool) (i : Nat) (evs : List Event) : Nat :=
  evs.countP (fun e => p e && (eventIdx e == i))

/-- Count of email send attempts for the given entry index. -/
def emailCount (i : Nat) (evs : List Event) : Nat :=
  countIdxWith isEmailCall i evs

/-- Count of all events for the given entry index. -/
def idxEventCount (i : Nat) (evs : List Event) : Nat :=
  countIdxWith (fun _ => true) i evs

/-- The sequence of entry indices of the availability lookups in a trace. -/
def checkedIdxs (evs : List Event) : List Nat :=
  evs.filterMap (fun e =>
    match e with
    | .checkCall i _ => some i
    | _ => none)

/-- The indices, counted from i onward, of the entries of a course slice whose
Found flag is false. -/
def pendingIdxs : Nat → List CourseStatus → List Nat
  | _, [] => []
  | i, c :: rest =>
    if c.found then pendingIdxs (i + 1) rest else i :: pendingIdxs (i + 1) rest

/-! ### Concrete instances used by witnesses and counterexamples -/

/-- A document whose table text and single row mention CRN 12345. -/
def demoDoc : Doc :=
  { tableText := "12345", rows := [("12345", "Intro to Testing")] }

/-- An HTTP oracle that always yields demoDoc, at every attempt. -/
def postAlwaysDemo : Nat → PostFn := fun _ _ _ => Except.ok demoDoc

/-- An email transport that always succeeds (a test double). -/
def sendAlwaysOk : SendFn := fun _ _ _ => Except.ok ()

/-- An email transport that always fails. -/
def sendAlwaysFail : SendFn := fun _ _ _ => Except.error "mock email error"

/-- The sendEmail path with RESEND_API_KEY unset in the environment. -/
def envKeyMissingSend : SendFn := fun _ _ _ => Except.error "RESEND_API_KEY not set"

/-- A configuration monitoring the single CRN 12345 with an email address. -/
def cfgDemo : Config :=
  { crns := ["12345"], email := "user@example.com", checkInterval := 30
  , term := "202601", campus := "0", baseURL := DefaultTimetableURL }

/-- An availability oracle that reports every section open. -/
def checkOpenAll : String → Except String Bool := fun _ => Except.ok true

/-- An availability oracle (any attempt) that reports every section open. -/
def checkOpenAllT : Nat → String → Except String Bool := fun _ _ => Except.ok true

/-- An availability oracle that fails on every lookup. -/
def checkOpenFailAll : String → Except String Bool := fun _ => Except.error "request failed"

/-- An availability oracle that fails for CRN 111 and succeeds with an open
seat for every other CRN. -/
def checkOpenMixed : String → Except String Bool := fun crn =>
  if crn = "111" then Except.error "request failed" else Except.ok true

/-- An HTTP oracle whose document only ever lists CRN 222 (so name resolution
for 111 fails and for 222 succeeds). -/
def postOnly222 : PostFn := fun _ _ =>
  Except.ok { tableText := "222", rows := [("222", "Calc")] }

/-- A configuration asking for CRNs 111 and 222. -/
def cfgTwo : Config :=
  { crns := ["111", "222"], email := "", checkInterval := 30
  , term := "202601", campus := "0", baseURL := DefaultTimetableURL }

/-- An HTTP oracle that fails on every request. -/
def postAlwaysError : PostFn := fun _ _ => Except.error "request failed"

/-- A configuration whose BaseURL field is the empty string. -/
def cfgEmptyBase : Config :=
  { crns := ["12345"], email := "", checkInterval := 30
  , term := "202601", campus := "0", baseURL := "" }

/-- A two-entry course slice: one already found, one still pending. -/
def coursesMixed : List CourseStatus :=
  [{ crn := "111", name := "Alg", found := true },
   { crn := "222", name := "Calc", found := false }]

/-- A two-entry course slice with both entries pending. -/
def coursesTwoPending : List CourseStatus :=
  [{ crn := "111", name := "Alg", found := false },
   { crn := "222", name := "Calc", found := false }]

/-- A single pending entry. -/
def coursesOne : List CourseStatus :=
  [{ crn := "12345", name := "Intro to Testing", found := false }]

/-- The event trace of one run over cfgDemo in which the seat is found on the
first check and the notification goes through the package-level send path. -/
def demoTrace : List Event :=
  [Event.checkCall 0 "12345",
   Event.seatFoundBox 0 "12345" "Intro to Testing",
   Event.emailCall .globalEnv 0 "user@example.com" "VT Course Section Open!"
     "OPEN SEAT: Intro to Testing (CRN: 12345)",
   Event.sentLine 0 "user@example.com"]

/-! ### Lemmas: decomposing the poll cycle -/

theorem checkCourse_eq (checkOpen : String → Except String Bool) (send : SendFn)
    (email : String) (i : Nat) (c : CourseStatus) (rem : Nat) :
    checkCourse checkOpen send email i c rem
      = (stepState checkOpen c, rem - remDelta checkOpen c, eventsFor checkOpen email i c) := by
  unfold checkCourse stepState remDelta eventsFor
  by_cases hf : c.found = true
  · simp [hf]
  · simp only [hf, if_false, Bool.false_eq_true]
    cases hco : checkOpen c.crn with
    | error e => simp
    | ok b =>
      cases b
      · simp
      · by_cases he : email = "" <;> simp [he]

theorem runCycleGo_eq (checkOpen : String → Except String Bool) (send : SendFn)
    (email : String) :
    ∀ (cs : List CourseStatus) (i0 rem : Nat),
    runCycleGo checkOpen send email i0 cs rem
      = ⟨cs.map (stepState checkOpen), rem - cycleDelta checkOpen cs,
         cycleTrace checkOpen email i0 cs⟩ := by
  intro cs
  induction cs with
  | nil => intro i0 rem; simp [runCycleGo, cycleDelta, cycleTrace]
  | cons c rest ih =>
    intro i0 rem
    simp only [runCycleGo, checkCourse_eq, ih, cycleDelta, List.map_cons, List.sum_cons,
      cycleTrace, List.cons_append]
    simp [Nat.sub_sub]

theorem runCycle_eq (checkOpen : String → Except String Bool) (send : SendFn)
    (email : String) (cs : List CourseStatus) (rem : Nat) :
    runCycle checkOpen send email cs rem
      = ⟨cs.map (stepState checkOpen), rem - cycleDelta checkOpen cs,
         cycleTrace checkOpen email 0 cs⟩ :=
  runCycleGo_eq checkOpen send email cs 0 rem

theorem stepState_of_found (checkOpen : String → Except String Bool) (c : CourseStatus)
    (h : c.found = true) : stepState checkOpen c = c := by
  simp [stepState, h]

theorem stepState_of_error (checkOpen : String → Except String Bool) (c : CourseStatus)
    (e : String) (h : checkOpen c.crn = .error e) : stepState checkOpen c = c := by
  unfold stepState
  by_cases hf : c.found = true
  · simp [hf]
  · simp [hf, h]

theorem stepState_found_mono (checkOpen : String → Except String Bool) (c : CourseStatus)
    (h : c.found = true) : (stepState checkOpen c).found = true := by
  rw [stepState_of_found checkOpen c h]; exact h

theorem stepState_found_false (checkOpen : String → Except String Bool) (c : CourseStatus)
    (h : (stepState checkOpen c).found = false) :
    stepState checkOpen c = c ∧ c.found = false := by
  cases hcf : c.found with
  | true =>
    exfalso
    rw [stepState_of_found checkOpen c hcf, hcf] at h
    cases h
  | false =>
    refine ⟨?_, rfl⟩
    unfold stepState at h ⊢
    rw [hcf] at h ⊢
    simp only [Bool.false_eq_true, if_false] at h ⊢
    cases hco : checkOpen c.crn with
    | error e => rfl
    | ok b =>
      cases b with
      | false => rfl
      | true =>
        rw [hco] at h
        simp at h

theorem eventsFor_of_found (checkOpen : String → Except String Bool) (email : String)
    (i : Nat) (c : CourseStatus) (h : c.found = true) :
    eventsFor checkOpen email i c = [] := by
  simp [eventsFor, h]

theorem eventsFor_mem_idx (checkOpen : String → Except String Bool) (email : String)
    (i : Nat) (c : CourseStatus) :
    ∀ e ∈ eventsFor checkOpen email i c, eventIdx e = i := by
  intro e he
  unfold eventsFor at he
  by_cases hf : c.found = true
  · simp [hf] at he
  · simp only [hf, if_false, Bool.false_eq_true] at he
    cases hco : checkOpen c.crn with
    | error err =>
      rw [hco] at he
      simp only [List.mem_cons, List.not_mem_nil, or_false] at he
      rcases he with rfl | rfl <;> rfl
    | ok b =>
      cases b with
      | false =>
        rw [hco] at he
        simp only [List.mem_singleton] at he
        subst he; rfl
      | true =>
        rw [hco] at he
        by_cases hemail : email = ""
        · simp only [hemail, ne_eq, not_true_eq_false, if_false, List.mem_cons,
            List.not_mem_nil, or_false] at he
          rcases he with rfl | rfl <;> rfl
        · simp only [ne_eq, hemail, not_false_eq_true, if_true, List.mem_cons,
            List.not_mem_nil, or_false] at he
          rcases he with rfl | rfl | rfl | rfl <;> rfl

theorem countIdxWith_append (p : Event → Bool) (i : Nat) (a b : List Event) :
    countIdxWith p i (a ++ b) = countIdxWith p i a + countIdxWith p i b := by
  simp [countIdxWith, List.countP_append]

theorem countIdxWith_eq_zero_of_idx (p : Event → Bool) (j : Nat) (evs : List Event)
    (h : ∀ e ∈ evs, eventIdx e ≠ j) : countIdxWith p j evs = 0 := by
  unfold countIdxWith
  rw [List.countP_eq_zero]
  intro e he
  simp only [Bool.and_eq_true, beq_iff_eq, not_and]
  intro _
  exact h e he

theorem countIdxWith_eventsFor_ne (p : Event → Bool) (checkOpen : String → Except String Bool)
    (email : String) (i j : Nat) (c : CourseStatus) (h : i ≠ j) :
    countIdxWith p j (eventsFor checkOpen email i c) = 0 :=
  countIdxWith_eq_zero_of_idx p j _
    (fun e he => by rw [eventsFor_mem_idx checkOpen email i c e he]; exact h)

theorem emailCount_eventsFor_le_one (checkOpen : String → Except String Bool)
    (email : String) (i : Nat) (c : CourseStatus) :
    emailCount i (eventsFor checkOpen email i c) ≤ 1 := by
  unfold emailCount countIdxWith eventsFor
  by_cases hf : c.found = true
  · simp [hf]
  · simp only [hf, if_false, Bool.false_eq_true]
    cases hco : checkOpen c.crn with
    | error err => simp [List.countP_cons, List.countP_nil, isEmailCall]
    | ok b =>
      cases b with
      | false => simp [List.countP_cons, List.countP_nil, isEmailCall]
      | true =>
        by_cases hemail : email = "" <;>
          simp [hemail, List.countP_cons, List.countP_nil, isEmailCall, eventIdx]

theorem emailCount_eventsFor_pos (checkOpen : String → Except String Bool)
    (email : String) (i : Nat) (c : CourseStatus)
    (h : emailCount i (eventsFor checkOpen email i c) ≠ 0) :
    c.found = false ∧ (stepState checkOpen c).found = true := by
  by_cases hf : c.found = true
  · rw [eventsFor_of_found checkOpen email i c hf] at h
    simp [emailCount, countIdxWith] at h
  · have hcf : c.found = false := by
      cases hcf2 : c.found
      · rfl
      · exact absurd hcf2 hf
    refine ⟨hcf, ?_⟩
    unfold emailCount countIdxWith eventsFor at h
    unfold stepState
    simp only [hcf, Bool.false_eq_true, if_false] at h ⊢
    cases hco : checkOpen c.crn with
    | error err => rw [hco] at h; simp [isEmailCall] at h
    | ok b =>
      cases b with
      | false => rw [hco] at h; simp [isEmailCall] at h
      | true => rfl

theorem emailCount_eventsFor_of_nostep (checkOpen : String → Except String Bool)
    (email : String) (i : Nat) (c : CourseStatus)
    (h : (stepState checkOpen c).found = false) :
    emailCount i (eventsFor checkOpen email i c) = 0 := by
  by_contra hne
  have hpos := emailCount_eventsFor_pos checkOpen email i c hne
  rw [hpos.2] at h
  cases h

theorem countP_email_eventsFor_of_error (checkOpen : String → Except String Bool)
    (email : String) (i : Nat) (c : CourseStatus) (e : String)
    (h : checkOpen c.crn = .error e) :
    (eventsFor checkOpen email i c).countP isEmailCall = 0 := by
  unfold eventsFor
  by_cases hf : c.found = true
  · simp [hf]
  · simp only [hf, if_false, Bool.false_eq_true]
    rw [h]
    simp [isEmailCall]

theorem cycleTrace_mem_idx (checkOpen : String → Except String Bool) (email : String) :
    ∀ (cs : List CourseStatus) (i0 : Nat) (e : Event),
    e ∈ cycleTrace checkOpen email i0 cs → i0 ≤ eventIdx e ∧ eventIdx e < i0 + cs.length := by
  intro cs
  induction cs with
  | nil => intro i0 e he; simp [cycleTrace] at he
  | cons c rest ih =>
    intro i0 e he
    unfold cycleTrace at he
    rw [List.mem_append] at he
    rcases he with he | he
    · have h1 := eventsFor_mem_idx checkOpen email i0 c e he
      rw [h1]
      simp only [List.length_cons]
      omega
    · have h2 := ih (i0 + 1) e he
      simp only [List.length_cons]
      omega

theorem countIdxWith_cycleTrace_out (p : Event → Bool) (checkOpen : String → Except String Bool)
    (email : String) (j i0 : Nat) (cs : List CourseStatus)
    (h : j < i0 ∨ i0 + cs.length ≤ j) :
    countIdxWith p j (cycleTrace checkOpen email i0 cs) = 0 := by
  apply countIdxWith_eq_zero_of_idx
  intro e he
  have hb := cycleTrace_mem_idx checkOpen email cs i0 e he
  omega

theorem countIdxWith_cycleTrace_get (p : Event → Bool) (checkOpen : String → Except String Bool)
    (email : String) :
    ∀ (cs : List CourseStatus) (i0 k : Nat) (c : CourseStatus), cs[k]? = some c →
    countIdxWith p (i0 + k) (cycleTrace checkOpen email i0 cs)
      = countIdxWith p (i0 + k) (eventsFor checkOpen email (i0 + k) c) := by
  intro cs
  induction cs with
  | nil => intro i0 k c h; simp at h
  | cons c0 rest ih =>
    intro i0 k c h
    unfold cycleTrace
    rw [countIdxWith_append]
    cases k with
    | zero =>
      rw [List.getElem?_cons_zero] at h
      injection h with h
      subst h
      have hz : countIdxWith p (i0 + 0) (cycleTrace checkOpen email (i0 + 1) rest) = 0 :=
        countIdxWith_cycleTrace_out p checkOpen email (i0 + 0) (i0 + 1) rest (by omega)
      rw [hz]
      simp
    | succ k2 =>
      rw [List.getElem?_cons_succ] at h
      have h1 : countIdxWith p (i0 + (k2 + 1)) (eventsFor checkOpen email i0 c0) = 0 :=
        countIdxWith_eventsFor_ne p checkOpen email i0 (i0 + (k2 + 1)) c0 (by omega)
      rw [h1]
      have harith : i0 + (k2 + 1) = (i0 + 1) + k2 := by omega
      rw [harith]
      rw [ih (i0 + 1) k2 c h]
      simp

theorem countP_email_cycleTrace_zero (checkOpen : String → Except String Bool) (email : String) :
    ∀ (cs : List CourseStatus) (i0 : Nat),
    (∀ c ∈ cs, ∃ e, checkOpen c.crn = .error e) →
    (cycleTrace checkOpen email i0 cs).countP isEmailCall = 0 := by
  intro cs
  induction cs with
  | nil => intro i0 _; simp [cycleTrace]
  | cons c rest ih =>
    intro i0 h
    unfold cycleTrace
    rw [List.countP_append]
    obtain ⟨e, he⟩ := h c (List.mem_cons_self c rest)
    rw [countP_email_eventsFor_of_error checkOpen email i0 c e he]
    rw [ih (i0 + 1) (fun c2 hc2 => h c2 (List.mem_cons_of_mem c hc2))]

theorem remDelta_eq_ite (checkOpen : String → Except String Bool) (c : CourseStatus) :
    remDelta checkOpen c
      = if c.found = false ∧ (stepState checkOpen c).found = true then 1 else 0 := by
  unfold remDelta stepState
  by_cases hf : c.found = true
  · simp [hf]
  · simp only [hf, if_false, Bool.false_eq_true]
    cases hco : checkOpen c.crn with
    | error e => simp at hf; simp [hf]
    | ok b =>
      cases b
      · simp at hf; simp [hf]
      · simp at hf; simp [hf]

theorem boolEqFalse (b : Bool) (h : ¬ b = true) : b = false := by
  cases b
  · rfl
  · exact absurd rfl h

theorem emailCount_cycleTrace_some (checkOpen : String → Except String Bool) (email : String)
    (cs : List CourseStatus) (k : Nat) (c : CourseStatus) (hk : cs[k]? = some c) :
    emailCount k (cycleTrace checkOpen email 0 cs)
      = emailCount k (eventsFor checkOpen email k c) := by
  have hget := countIdxWith_cycleTrace_get isEmailCall checkOpen email cs 0 k c hk
  simp only [Nat.zero_add] at hget
  exact hget

theorem emailCount_cycleTrace_le_one (checkOpen : String → Except String Bool) (email : String)
    (cs : List CourseStatus) (k : Nat) :
    emailCount k (cycleTrace checkOpen email 0 cs) ≤ 1 := by
  cases hk : cs[k]? with
  | none =>
    have hlen : cs.length ≤ k := List.getElem?_eq_none_iff.mp hk
    have h0 : countIdxWith isEmailCall k (cycleTrace checkOpen email 0 cs) = 0 :=
      countIdxWith_cycleTrace_out isEmailCall checkOpen email k 0 cs (by omega)
    simp only [emailCount, h0]
    omega
  | some c =>
    rw [emailCount_cycleTrace_some checkOpen email cs k c hk]
    exact emailCount_eventsFor_le_one checkOpen email k c

/-! ### Lemmas: the outer loop -/

theorem runLoop_found_persist (checkOpen : Nat → String → Except String Bool) (send : SendFn)
    (email : String) :
    ∀ (fuel attempt : Nat) (cs : List CourseStatus) (rem k : Nat) (c : CourseStatus),
    cs[k]? = some c → c.found = true →
    (runLoop checkOpen send email fuel attempt cs rem).courses[k]? = some c := by
  intro fuel
  induction fuel with
  | zero => intro attempt cs rem k c h _; exact h
  | succ fuel ih =>
    intro attempt cs rem k c h hf
    simp only [runLoop, runCycle_eq]
    have hmap : (cs.map (stepState (checkOpen attempt)))[k]? = some c := by
      rw [List.getElem?_map, h]
      simp [stepState_of_found _ c hf]
    split
    · exact hmap
    · exact ih (attempt + 1) _ _ k c hmap hf

theorem runLoop_idxCount_found (p : Event → Bool) (checkOpen : Nat → String → Except String Bool)
    (send : SendFn) (email : String) :
    ∀ (fuel attempt : Nat) (cs : List CourseStatus) (rem k : Nat) (c : CourseStatus),
    cs[k]? = some c → c.found = true →
    countIdxWith p k (runLoop checkOpen send email fuel attempt cs rem).trace = 0 := by
  intro fuel
  induction fuel with
  | zero => intro attempt cs rem k c _ _; simp [runLoop, countIdxWith]
  | succ fuel ih =>
    intro attempt cs rem k c h hf
    simp only [runLoop, runCycle_eq]
    have hcyc : countIdxWith p k (cycleTrace (checkOpen attempt) email 0 cs) = 0 := by
      have hget := countIdxWith_cycleTrace_get p (checkOpen attempt) email cs 0 k c h
      simp only [Nat.zero_add] at hget
      rw [hget, eventsFor_of_found _ _ _ _ hf]
      simp [countIdxWith]
    have hmap : (cs.map (stepState (checkOpen attempt)))[k]? = some c := by
      rw [List.getElem?_map, h]
      simp [stepState_of_found _ c hf]
    split
    · exact hcyc
    · rw [countIdxWith_append, hcyc, ih (attempt + 1) _ _ k c hmap hf]

theorem runLoop_email_le_one (checkOpen : Nat → String → Except String Bool) (send : SendFn)
    (email : String) :
    ∀ (fuel attempt : Nat) (cs : List CourseStatus) (rem k : Nat),
    emailCount k (runLoop checkOpen send email fuel attempt cs rem).trace ≤ 1 := by
  intro fuel
  induction fuel with
  | zero => intro attempt cs rem k; simp [runLoop, emailCount, countIdxWith]
  | succ fuel ih =>
    intro attempt cs rem k
    simp only [runLoop, runCycle_eq]
    split
    · exact emailCount_cycleTrace_le_one (checkOpen attempt) email cs k
    · simp only [emailCount, countIdxWith_append]
      cases hk : cs[k]? with
      | none =>
        have hlen : cs.length ≤ k := List.getElem?_eq_none_iff.mp hk
        have h1 : countIdxWith isEmailCall k (cycleTrace (checkOpen attempt) email 0 cs) = 0 :=
          countIdxWith_cycleTrace_out isEmailCall (checkOpen attempt) email k 0 cs (by omega)
        have h2 := ih (attempt + 1) (cs.map (stepState (checkOpen attempt)))
          (rem - cycleDelta (checkOpen attempt) cs) k
        simp only [emailCount] at h2
        omega
      | some c =>
        have hcyc := emailCount_cycleTrace_some (checkOpen attempt) email cs k c hk
        simp only [emailCount] at hcyc
        by_cases hstep : (stepState (checkOpen attempt) c).found = true
        · have hmap : (cs.map (stepState (checkOpen attempt)))[k]?
              = some (stepState (checkOpen attempt) c) := by
            rw [List.getElem?_map, hk]; rfl
          have h2 := runLoop_idxCount_found isEmailCall checkOpen send email fuel (attempt + 1)
            (cs.map (stepState (checkOpen attempt))) (rem - cycleDelta (checkOpen attempt) cs)
            k (stepState (checkOpen attempt) c) hmap hstep
          have h1 := emailCount_eventsFor_le_one (checkOpen attempt) email k c
          simp only [emailCount] at h1
          omega
        · have hsf : (stepState (checkOpen attempt) c).found = false :=
            boolEqFalse _ hstep
          have h1 := emailCount_eventsFor_of_nostep (checkOpen attempt) email k c hsf
          have h2 := ih (attempt + 1) (cs.map (stepState (checkOpen attempt)))
            (rem - cycleDelta (checkOpen attempt) cs) k
          simp only [emailCount] at h1 h2
          omega

theorem runLoop_email_pos (checkOpen : Nat → String → Except String Bool) (send : SendFn)
    (email : String) :
    ∀ (fuel attempt : Nat) (cs : List CourseStatus) (rem k : Nat),
    emailCount k (runLoop checkOpen send email fuel attempt cs rem).trace ≠ 0 →
    ∃ c, cs[k]? = some c ∧ c.found = false ∧
      ∃ c2, (runLoop checkOpen send email fuel attempt cs rem).courses[k]? = some c2
        ∧ c2.found = true := by
  intro fuel
  induction fuel with
  | zero => intro attempt cs rem k h; simp [runLoop, emailCount, countIdxWith] at h
  | succ fuel ih =>
    intro attempt cs rem k h
    simp only [runLoop, runCycle_eq] at h ⊢
    by_cases h0 : rem - cycleDelta (checkOpen attempt) cs = 0
    · rw [if_pos h0] at h ⊢
      dsimp only at h ⊢
      cases hk : cs[k]? with
      | none =>
        exfalso
        have hlen : cs.length ≤ k := List.getElem?_eq_none_iff.mp hk
        have h1 : countIdxWith isEmailCall k (cycleTrace (checkOpen attempt) email 0 cs) = 0 :=
          countIdxWith_cycleTrace_out isEmailCall (checkOpen attempt) email k 0 cs (by omega)
        simp only [emailCount] at h
        exact h h1
      | some c =>
        rw [emailCount_cycleTrace_some (checkOpen attempt) email cs k c hk] at h
        obtain ⟨hcf, hsf⟩ := emailCount_eventsFor_pos (checkOpen attempt) email k c h
        refine ⟨c, rfl, hcf, stepState (checkOpen attempt) c, ?_, hsf⟩
        rw [List.getElem?_map, hk]
        rfl
    · rw [if_neg h0] at h ⊢
      dsimp only at h ⊢
      rw [emailCount, countIdxWith_append] at h
      by_cases hc : countIdxWith isEmailCall k (cycleTrace (checkOpen attempt) email 0 cs) = 0
      · rw [hc] at h
        simp only [Nat.zero_add] at h
        obtain ⟨c1, hk1, hcf1, c2, hk2, hf2⟩ := ih (attempt + 1) _ _ k h
        have hex : ∃ c, cs[k]? = some c ∧ stepState (checkOpen attempt) c = c1 := by
          rw [List.getElem?_map] at hk1
          cases hk : cs[k]? with
          | none => rw [hk] at hk1; cases hk1
          | some c =>
            rw [hk] at hk1
            injection hk1 with hk1
            exact ⟨c, rfl, hk1⟩
        obtain ⟨c, hk0, hstep⟩ := hex
        have hcf : c.found = false := by
          have := stepState_found_false (checkOpen attempt) c (by rw [hstep]; exact hcf1)
          exact this.2
        exact ⟨c, hk0, hcf, c2, hk2, hf2⟩
      · cases hk : cs[k]? with
        | none =>
          exfalso
          have hlen : cs.length ≤ k := List.getElem?_eq_none_iff.mp hk
          exact hc (countIdxWith_cycleTrace_out isEmailCall (checkOpen attempt) email k 0 cs
            (by omega))
        | some c =>
          have hcyc := emailCount_cycleTrace_some (checkOpen attempt) email cs k c hk
          simp only [emailCount] at hcyc
          rw [hcyc] at hc
          obtain ⟨hcf, hsf⟩ := emailCount_eventsFor_pos (checkOpen attempt) email k c hc
          have hmap : (cs.map (stepState (checkOpen attempt)))[k]?
              = some (stepState (checkOpen attempt) c) := by
            rw [List.getElem?_map, hk]; rfl
          refine ⟨c, rfl, hcf, stepState (checkOpen attempt) c, ?_, hsf⟩
          exact runLoop_found_persist checkOpen send email fuel (attempt + 1) _ _ k _ hmap hsf

theorem countPending_cons (c : CourseStatus) (cs : List CourseStatus) :
    countPending (c :: cs) = countPending [c] + countPending cs := by
  simp only [countPending, List.countP_cons, List.countP_nil]
  omega

theorem countPending_single_step (checkOpen : String → Except String Bool) (c : CourseStatus) :
    countPending [stepState checkOpen c] = countPending [c] - remDelta checkOpen c
    ∧ remDelta checkOpen c ≤ countPending [c] := by
  unfold stepState remDelta countPending
  by_cases hf : c.found = true
  · simp [hf]
  · have hcf : c.found = false := boolEqFalse _ hf
    simp only [hcf, Bool.false_eq_true, if_false]
    cases hco : checkOpen c.crn with
    | error e => simp [hcf]
    | ok b =>
      cases b with
      | false => simp [hcf]
      | true => simp [hcf]

theorem countPending_map_step (checkOpen : String → Except String Bool) :
    ∀ cs : List CourseStatus,
    countPending (cs.map (stepState checkOpen)) = countPending cs - cycleDelta checkOpen cs
    ∧ cycleDelta checkOpen cs ≤ countPending cs := by
  intro cs
  induction cs with
  | nil => simp [countPending, cycleDelta]
  | cons c rest ih =>
    obtain ⟨ih1, ih2⟩ := ih
    obtain ⟨h1, h2⟩ := countPending_single_step checkOpen c
    have e1 : countPending (c :: rest) = countPending [c] + countPending rest :=
      countPending_cons c rest
    have e2 : countPending ((c :: rest).map (stepState checkOpen))
        = countPending [stepState checkOpen c] + countPending (rest.map (stepState checkOpen)) := by
      rw [List.map_cons]
      exact countPending_cons _ _
    have e3 : cycleDelta checkOpen (c :: rest) = remDelta checkOpen c + cycleDelta checkOpen rest := by
      simp [cycleDelta]
    constructor <;> omega

theorem runCycle_countPending (checkOpen : String → Except String Bool) (send : SendFn)
    (email : String) (cs : List CourseStatus) (rem : Nat) (h : rem = countPending cs) :
    (runCycle checkOpen send email cs rem).remaining
      = countPending (runCycle checkOpen send email cs rem).courses := by
  rw [runCycle_eq]
  show rem - cycleDelta checkOpen cs = countPending (cs.map (stepState checkOpen))
  obtain ⟨h1, h2⟩ := countPending_map_step checkOpen cs
  omega

theorem iterCycles_countPending (checkOpen : Nat → String → Except String Bool) (send : SendFn)
    (email : String) :
    ∀ (k attempt : Nat) (cs : List CourseStatus) (rem : Nat), rem = countPending cs →
    (iterCycles checkOpen send email k attempt (cs, rem)).2
      = countPending (iterCycles checkOpen send email k attempt (cs, rem)).1 := by
  intro k
  induction k with
  | zero => intro attempt cs rem h; exact h
  | succ k ih =>
    intro attempt cs rem h
    simp only [iterCycles, runCycle_eq]
    apply ih
    obtain ⟨h1, h2⟩ := countPending_map_step (checkOpen attempt) cs
    omega

theorem runLoop_done_iff (checkOpen : Nat → String → Except String Bool) (send : SendFn)
    (email : String) :
    ∀ (fuel attempt : Nat) (cs : List CourseStatus) (rem : Nat),
    (runLoop checkOpen send email fuel attempt cs rem).done = true
      ↔ ∃ k, k < fuel ∧ (iterCycles checkOpen send email (k + 1) attempt (cs, rem)).2 = 0 := by
  intro fuel
  induction fuel with
  | zero =>
    intro attempt cs rem
    simp [runLoop]
  | succ fuel ih =>
    intro attempt cs rem
    constructor
    · intro hd
      simp only [runLoop] at hd
      by_cases h0 : (runCycle (checkOpen attempt) send email cs rem).remaining = 0
      · refine ⟨0, Nat.succ_pos fuel, ?_⟩
        simp only [iterCycles]
        exact h0
      · rw [if_neg h0] at hd
        dsimp only at hd
        obtain ⟨k, hk, hiter⟩ := (ih (attempt + 1) _ _).mp hd
        refine ⟨k + 1, by omega, ?_⟩
        simp only [iterCycles]
        exact hiter
    · rintro ⟨k, hk, hiter⟩
      simp only [runLoop]
      by_cases h0 : (runCycle (checkOpen attempt) send email cs rem).remaining = 0
      · rw [if_pos h0]
      · rw [if_neg h0]
        dsimp only
        apply (ih (attempt + 1) _ _).mpr
        cases k with
        | zero =>
          exfalso
          simp only [iterCycles] at hiter
          exact h0 hiter
        | succ k2 =>
          refine ⟨k2, by omega, ?_⟩
          simp only [iterCycles] at hiter
          exact hiter

/-! ### Lemmas: lookup ordering within a cycle -/

theorem checkedIdxs_append (a b : List Event) :
    checkedIdxs (a ++ b) = checkedIdxs a ++ checkedIdxs b := by
  simp [checkedIdxs, List.filterMap_append]

theorem checkedIdxs_eventsFor (checkOpen : String → Except String Bool) (email : String)
    (i : Nat) (c : CourseStatus) :
    checkedIdxs (eventsFor checkOpen email i c) = if c.found then [] else [i] := by
  unfold eventsFor checkedIdxs
  by_cases hf : c.found = true
  · simp [hf]
  · have hcf : c.found = false := boolEqFalse _ hf
    simp only [hcf, Bool.false_eq_true, if_false]
    cases hco : checkOpen c.crn with
    | error e => simp
    | ok b =>
      cases b with
      | false => simp
      | true =>
        by_cases hemail : email = "" <;> simp [hemail]

theorem checkedIdxs_cycleTrace (checkOpen : String → Except String Bool) (email : String) :
    ∀ (cs : List CourseStatus) (i0 : Nat),
    checkedIdxs (cycleTrace checkOpen email i0 cs) = pendingIdxs i0 cs := by
  intro cs
  induction cs with
  | nil => intro i0; simp [cycleTrace, checkedIdxs, pendingIdxs]
  | cons c rest ih =>
    intro i0
    unfold cycleTrace pendingIdxs
    rw [checkedIdxs_append, checkedIdxs_eventsFor, ih]
    by_cases hf : c.found = true
    · simp [hf]
    · have hcf : c.found = false := boolEqFalse _ hf
      simp [hcf]

theorem pendingIdxs_ge :
    ∀ (cs : List CourseStatus) (i0 j : Nat), j ∈ pendingIdxs i0 cs → i0 ≤ j := by
  intro cs
  induction cs with
  | nil => intro i0 j h; simp [pendingIdxs] at h
  | cons c rest ih =>
    intro i0 j h
    unfold pendingIdxs at h
    by_cases hf : c.found = true
    · rw [if_pos hf] at h
      have := ih (i0 + 1) j h
      omega
    · rw [if_neg hf] at h
      rcases List.mem_cons.mp h with rfl | h2
      · exact le_refl _
      · have := ih (i0 + 1) j h2
        omega

theorem pendingIdxs_nodup :
    ∀ (cs : List CourseStatus) (i0 : Nat), (pendingIdxs i0 cs).Nodup := by
  intro cs
  induction cs with
  | nil => intro i0; simp [pendingIdxs]
  | cons c rest ih =>
    intro i0
    unfold pendingIdxs
    by_cases hf : c.found = true
    · rw [if_pos hf]; exact ih (i0 + 1)
    · rw [if_neg hf]
      refine List.Nodup.cons ?_ (ih (i0 + 1))
      intro hmem
      have := pendingIdxs_ge rest (i0 + 1) i0 hmem
      omega

theorem pendingIdxs_mem :
    ∀ (cs : List CourseStatus) (i0 j : Nat),
    j ∈ pendingIdxs i0 cs
      ↔ i0 ≤ j ∧ ∃ c, cs[j - i0]? = some c ∧ c.found = false := by
  intro cs
  induction cs with
  | nil => intro i0 j; simp [pendingIdxs]
  | cons c rest ih =>
    intro i0 j
    unfold pendingIdxs
    by_cases hf : c.found = true
    · rw [if_pos hf, ih (i0 + 1) j]
      constructor
      · rintro ⟨h1, c2, h2, h3⟩
        refine ⟨by omega, c2, ?_, h3⟩
        have harith : j - i0 = (j - (i0 + 1)) + 1 := by omega
        rw [harith, List.getElem?_cons_succ]
        exact h2
      · rintro ⟨h1, c2, h2, h3⟩
        by_cases hji : j = i0
        · subst hji
          rw [Nat.sub_self, List.getElem?_cons_zero] at h2
          injection h2 with h2
          rw [← h2] at h3
          rw [hf] at h3
          cases h3
        · refine ⟨by omega, c2, ?_, h3⟩
          have harith : j - i0 = (j - (i0 + 1)) + 1 := by omega
          rw [harith, List.getElem?_cons_succ] at h2
          exact h2
    · rw [if_neg hf]
      have hcf : c.found = false := boolEqFalse _ hf
      rw [List.mem_cons, ih (i0 + 1) j]
      constructor
      · rintro (rfl | ⟨h1, c2, h2, h3⟩)
        · exact ⟨le_refl _, c, by rw [Nat.sub_self, List.getElem?_cons_zero], hcf⟩
        · refine ⟨by omega, c2, ?_, h3⟩
          have harith : j - i0 = (j - (i0 + 1)) + 1 := by omega
          rw [harith, List.getElem?_cons_succ]
          exact h2
      · rintro ⟨h1, c2, h2, h3⟩
        by_cases hji : j = i0
        · exact Or.inl hji
        · right
          refine ⟨by omega, c2, ?_, h3⟩
          have harith : j - i0 = (j - (i0 + 1)) + 1 := by omega
          rw [harith, List.getElem?_cons_succ] at h2
          exact h2

/-! ### Lemmas: failure isolation within a cycle -/

theorem remDelta_of_error (checkOpen : String → Except String Bool) (c : CourseStatus)
    (e : String) (h : checkOpen c.crn = .error e) : remDelta checkOpen c = 0 := by
  unfold remDelta
  by_cases hf : c.found = true
  · simp [hf]
  · simp [hf, h]

theorem map_fix {α : Type} (f : α → α) :
    ∀ (l : List α), (∀ a ∈ l, f a = a) → l.map f = l := by
  intro l
  induction l with
  | nil => intro _; rfl
  | cons a l ih =>
    intro h
    rw [List.map_cons, h a (List.mem_cons_self a l),
      ih (fun b hb => h b (List.mem_cons_of_mem a hb))]

theorem cycleDelta_zero (checkOpen : String → Except String Bool) :
    ∀ (cs : List CourseStatus), (∀ c ∈ cs, remDelta checkOpen c = 0) →
    cycleDelta checkOpen cs = 0 := by
  intro cs
  induction cs with
  | nil => intro _; rfl
  | cons c rest ih =>
    intro h
    simp only [cycleDelta, List.map_cons, List.sum_cons]
    rw [h c (List.mem_cons_self c rest)]
    have hrest := ih (fun b hb => h b (List.mem_cons_of_mem c hb))
    simp only [cycleDelta] at hrest
    rw [hrest]

theorem runCycle_error_unchanged (checkOpen : String → Except String Bool) (send : SendFn)
    (email : String) (cs : List CourseStatus) (rem i : Nat) (c : CourseStatus) (e : String)
    (h : cs[i]? = some c) (he : checkOpen c.crn = .error e) :
    (runCycle checkOpen send email cs rem).courses[i]? = some c := by
  rw [runCycle_eq]
  show (cs.map (stepState checkOpen))[i]? = some c
  rw [List.getElem?_map, h]
  simp [stepState_of_error checkOpen c e he]

theorem runCycle_allfail (checkOpen : String → Except String Bool) (send : SendFn)
    (email : String) (cs : List CourseStatus) (rem : Nat)
    (h : ∀ c ∈ cs, ∃ e, checkOpen c.crn = .error e) :
    (runCycle checkOpen send email cs rem).courses = cs
    ∧ (runCycle checkOpen send email cs rem).remaining = rem
    ∧ (runCycle checkOpen send email cs rem).trace.countP isEmailCall = 0 := by
  rw [runCycle_eq]
  refine ⟨?_, ?_, ?_⟩
  · show cs.map (stepState checkOpen) = cs
    apply map_fix
    intro c hc
    obtain ⟨e, he⟩ := h c hc
    exact stepState_of_error checkOpen c e he
  · show rem - cycleDelta checkOpen cs = rem
    have hz : cycleDelta checkOpen cs = 0 := by
      apply cycleDelta_zero
      intro c hc
      obtain ⟨e, he⟩ := h c hc
      exact remDelta_of_error checkOpen c e he
    omega
  · exact countP_email_cycleTrace_zero checkOpen email cs 0 h

/-! ### Lemmas: the initial course list -/

theorem foldl_resolve_append (post : PostFn) (cfg : Config) :
    ∀ (l : List String) (acc : List CourseStatus),
    l.foldl
      (fun acc crn =>
        match cfg.getCourseName post crn with
        | .error _ => acc
        | .ok name => acc ++ [{ crn := crn, name := name, found := false }]) acc
      = acc ++ l.filterMap (resolveCourse post cfg) := by
  intro l
  induction l with
  | nil => intro acc; simp
  | cons crn rest ih =>
    intro acc
    rw [List.foldl_cons, List.filterMap_cons]
    cases hres : cfg.getCourseName post crn with
    | error e =>
      have h1 : resolveCourse post cfg crn = none := by simp [resolveCourse, hres]
      rw [h1]
      simp only [hres]
      rw [ih]
    | ok name =>
      have h1 : resolveCourse post cfg crn
          = some { crn := crn, name := name, found := false } := by
        simp [resolveCourse, hres]
      rw [h1]
      simp only [hres]
      rw [ih]
      simp [List.append_assoc]

theorem initCourses_eq_filterMap (post : PostFn) (cfg : Config) :
    initCourses post cfg = cfg.crns.filterMap (resolveCourse post cfg) := by
  unfold initCourses
  rw [foldl_resolve_append post cfg cfg.crns []]
  simp

theorem runInit_error_iff (post : PostFn) (cfg : Config) :
    runInit post cfg = .error "no valid CRNs to monitor"
      ↔ ∀ crn ∈ cfg.crns, resolveCourse post cfg crn = none := by
  unfold runInit
  rw [initCourses_eq_filterMap]
  by_cases h0 : (cfg.crns.filterMap (resolveCourse post cfg)).length = 0
  · rw [if_pos h0]
    constructor
    · intro _
      have hnil : cfg.crns.filterMap (resolveCourse post cfg) = [] :=
        List.length_eq_zero.mp h0
      intro crn hcrn
      exact List.filterMap_eq_nil_iff.mp hnil crn hcrn
    · intro _
      rfl
  · rw [if_neg h0]
    constructor
    · intro h
      exact Except.noConfusion h
    · intro hall
      exfalso
      apply h0
      rw [List.length_eq_zero, List.filterMap_eq_nil_iff]
      exact hall

theorem initCourses_found_false (post : PostFn) (cfg : Config) :
    ∀ c ∈ initCourses post cfg, c.found = false := by
  intro c hc
  rw [initCourses_eq_filterMap] at hc
  obtain ⟨crn, hcrn, hres⟩ := List.mem_filterMap.mp hc
  unfold resolveCourse at hres
  cases hg : cfg.getCourseName post crn with
  | error e => rw [hg] at hres; cases hres
  | ok name =>
    rw [hg] at hres
    injection hres with h2
    rw [← h2]

theorem runCycle_send_irrel (checkOpen : String → Except String Bool) (send send2 : SendFn)
    (email : String) (cs : List CourseStatus) (rem : Nat) :
    runCycle checkOpen send email cs rem = runCycle checkOpen send2 email cs rem := by
  rw [runCycle_eq, runCycle_eq]

theorem runLoop_send_irrel (checkOpen : Nat → String → Except String Bool)
    (send send2 : SendFn) (email : String) :
    ∀ (fuel attempt : Nat) (cs : List CourseStatus) (rem : Nat),
    runLoop checkOpen send email fuel attempt cs rem
      = runLoop checkOpen send2 email fuel attempt cs rem := by
  intro fuel
  induction fuel with
  | zero => intro _ _ _; rfl
  | succ fuel ih =>
    intro attempt cs rem
    simp only [runLoop]
    rw [runCycle_send_irrel (checkOpen attempt) send send2 email cs rem,
      ih (attempt + 1)]

/-! ### The claims -/

/-- Claim C1: over a whole session a notification is attempted at most once
per entry and only upon its pending-to-found transition, the Found flag is
never cleared, and an entry that is already found is skipped entirely in
every later cycle: its state is untouched and it generates no event at all
(neither a lookup nor a notification). -/
theorem claim1 (checkOpen : Nat → String → Except String Bool) (send : SendFn) (email : String)
    (fuel attempt : Nat) (cs : List CourseStatus) (rem k : Nat) :
    emailCount k (runLoop checkOpen send email fuel attempt cs rem).trace ≤ 1
    ∧ (∀ c, cs[k]? = some c → c.found = true →
        (runLoop checkOpen send email fuel attempt cs rem).courses[k]? = some c
        ∧ idxEventCount k (runLoop checkOpen send email fuel attempt cs rem).trace = 0)
    ∧ (emailCount k (runLoop checkOpen send email fuel attempt cs rem).trace ≠ 0 →
        ∃ c, cs[k]? = some c ∧ c.found = false
          ∧ ∃ c2, (runLoop checkOpen send email fuel attempt cs rem).courses[k]? = some c2
              ∧ c2.found = true) := by
  refine ⟨runLoop_email_le_one checkOpen send email fuel attempt cs rem k, ?_, ?_⟩
  · intro c h hf
    exact ⟨runLoop_found_persist checkOpen send email fuel attempt cs rem k c h hf,
      runLoop_idxCount_found (fun _ => true) checkOpen send email fuel attempt cs rem k c h hf⟩
  · exact runLoop_email_pos checkOpen send email fuel attempt cs rem k

/-- Witness for claim C1 at a concrete input: a found first entry stays
untouched and event-free for the whole session, and the pending second entry
that triggers a notification transitions to found. -/
theorem claim1_witness :
    emailCount 1 (runLoop checkOpenAllT envKeyMissingSend "user@example.com"
        2 1 coursesMixed 1).trace ≤ 1
    ∧ (runLoop checkOpenAllT envKeyMissingSend "user@example.com"
        2 1 coursesMixed 1).courses[0]? = some { crn := "111", name := "Alg", found := true }
    ∧ idxEventCount 0 (runLoop checkOpenAllT envKeyMissingSend "user@example.com"
        2 1 coursesMixed 1).trace = 0
    ∧ ∃ c, coursesMixed[1]? = some c ∧ c.found = false
        ∧ ∃ c2, (runLoop checkOpenAllT envKeyMissingSend "user@example.com"
            2 1 coursesMixed 1).courses[1]? = some c2 ∧ c2.found = true := by
  have h1 := claim1 checkOpenAllT envKeyMissingSend "user@example.com" 2 1 coursesMixed 1 1
  have h0 := claim1 checkOpenAllT envKeyMissingSend "user@example.com" 2 1 coursesMixed 1 0
  refine ⟨h1.1, ?_, ?_, h1.2.2 (by decide)⟩
  · exact (h0.2.1 { crn := "111", name := "Alg", found := true } (by rfl) rfl).1
  · exact (h0.2.1 { crn := "111", name := "Alg", found := true } (by rfl) rfl).2

/-- Claim C2: a failed lookup leaves that entry unchanged and the cycle
continues: every entry whose lookup errors keeps its state, every pending
entry is still looked up once in insertion order whatever the other lookups
do, and a cycle in which every lookup fails returns the course list and the
remaining counter unchanged and attempts no notification. -/
theorem claim2 (checkOpen : String → Except String Bool) (send : SendFn) (email : String)
    (cs : List CourseStatus) (rem : Nat) :
    (∀ (i : Nat) (c : CourseStatus) (e : String), cs[i]? = some c → checkOpen c.crn = .error e →
      (runCycle checkOpen send email cs rem).courses[i]? = some c)
    ∧ checkedIdxs (runCycle checkOpen send email cs rem).trace = pendingIdxs 0 cs
    ∧ ((∀ c ∈ cs, ∃ e, checkOpen c.crn = .error e) →
      (runCycle checkOpen send email cs rem).courses = cs
      ∧ (runCycle checkOpen send email cs rem).remaining = rem
      ∧ (runCycle checkOpen send email cs rem).trace.countP isEmailCall = 0) := by
  refine ⟨?_, ?_, ?_⟩
  · intro i c e h he
    exact runCycle_error_unchanged checkOpen send email cs rem i c e h he
  · rw [runCycle_eq]
    exact checkedIdxs_cycleTrace checkOpen email cs 0
  · intro h
    exact runCycle_allfail checkOpen send email cs rem h

/-- Witness for claim C2 at concrete inputs: with a lookup oracle failing for
CRN 111 only, entry 0 is unchanged; with an oracle failing for every CRN, the
cycle changes nothing and sends nothing. -/
theorem claim2_witness :
    (runCycle checkOpenMixed sendAlwaysOk "" coursesTwoPending 2).courses[0]?
        = some { crn := "111", name := "Alg", found := false }
    ∧ ((runCycle checkOpenFailAll sendAlwaysOk "" coursesTwoPending 2).courses = coursesTwoPending
      ∧ (runCycle checkOpenFailAll sendAlwaysOk "" coursesTwoPending 2).remaining = 2
      ∧ (runCycle checkOpenFailAll sendAlwaysOk "" coursesTwoPending 2).trace.countP
          isEmailCall = 0) := by
  refine ⟨?_, ?_⟩
  · exact (claim2 checkOpenMixed sendAlwaysOk "" coursesTwoPending 2).1 0
      { crn := "111", name := "Alg", found := false } "request failed" (by rfl) (by rfl)
  · exact (claim2 checkOpenFailAll sendAlwaysOk "" coursesTwoPending 2).2.2
      (fun c _ => ⟨"request failed", rfl⟩)

/-- Claim C4: the loop returns successfully exactly when the check right
after a completed cycle sees a remaining counter of zero, whatever the
lookups did: for any fuel, the loop reports done iff after some (k+1)-st
cycle within the fuel the counter is zero; under the counter invariant the
same holds with the number of still-pending entries. -/
theorem claim4 (checkOpen : Nat → String → Except String Bool) (send : SendFn) (email : String)
    (fuel attempt : Nat) (cs : List CourseStatus) (rem : Nat) :
    ((runLoop checkOpen send email fuel attempt cs rem).done = true
      ↔ ∃ k, k < fuel ∧ (iterCycles checkOpen send email (k + 1) attempt (cs, rem)).2 = 0)
    ∧ (rem = countPending cs →
      ((runLoop checkOpen send email fuel attempt cs rem).done = true
        ↔ ∃ k, k < fuel
            ∧ countPending (iterCycles checkOpen send email (k + 1) attempt (cs, rem)).1 = 0)) := by
  refine ⟨runLoop_done_iff checkOpen send email fuel attempt cs rem, ?_⟩
  intro h
  rw [runLoop_done_iff checkOpen send email fuel attempt cs rem]
  constructor
  · rintro ⟨k, hk, hiter⟩
    refine ⟨k, hk, ?_⟩
    rw [← iterCycles_countPending checkOpen send email (k + 1) attempt cs rem h]
    exact hiter
  · rintro ⟨k, hk, hiter⟩
    refine ⟨k, hk, ?_⟩
    rw [iterCycles_countPending checkOpen send email (k + 1) attempt cs rem h]
    exact hiter

/-- Witness for claim C4 at a concrete input: with one pending entry and an
open seat on the first check, the loop returns successfully. -/
theorem claim4_witness :
    (runLoop checkOpenAllT sendAlwaysOk "" 1 1 coursesOne 1).done = true :=
  ((claim4 checkOpenAllT sendAlwaysOk "" 1 1 coursesOne 1).2 (by decide)).mpr
    ⟨0, Nat.zero_lt_one, by decide⟩

/-- Claim C5: the remaining counter always equals the number of entries whose
Found flag is false: the freshly resolved course list starts all-pending (so
the counter starts at its length), a single entry decrements the counter
exactly when its flag is first set, one poll cycle preserves the equality,
and it still holds after any number of cycles. -/
theorem claim5 (post : PostFn) (cfg : Config) (checkOpen : Nat → String → Except String Bool)
    (send : SendFn) (email : String) (cs : List CourseStatus) (rem attempt k i : Nat)
    (c : CourseStatus) :
    countPending (initCourses post cfg) = (initCourses post cfg).length
    ∧ ((checkCourse (checkOpen attempt) send email i c rem).2.1
        = if c.found = false ∧ (stepState (checkOpen attempt) c).found = true
          then rem - 1 else rem)
    ∧ (rem = countPending cs →
        (runCycle (checkOpen attempt) send email cs rem).remaining
          = countPending (runCycle (checkOpen attempt) send email cs rem).courses)
    ∧ (rem = countPending cs →
        (iterCycles checkOpen send email k attempt (cs, rem)).2
          = countPending (iterCycles checkOpen send email k attempt (cs, rem)).1) := by
  refine ⟨?_, ?_, ?_, ?_⟩
  · have hall := initCourses_found_false post cfg
    unfold countPending
    rw [List.countP_eq_length]
    intro c2 hc2
    simp [hall c2 hc2]
  · rw [checkCourse_eq, remDelta_eq_ite]
    dsimp only
    by_cases hcond : c.found = false ∧ (stepState (checkOpen attempt) c).found = true
    · rw [if_pos hcond, if_pos hcond]
    · rw [if_neg hcond, if_neg hcond]
      omega
  · intro h
    exact runCycle_countPending (checkOpen attempt) send email cs rem h
  · intro h
    exact iterCycles_countPending checkOpen send email k attempt cs rem h

/-- Witness for claim C5 at a concrete input: the invariant holds after one
cycle and after three cycles over two pending entries. -/
theorem claim5_witness :
    (runCycle (checkOpenAllT 1) sendAlwaysOk "" coursesTwoPending 2).remaining
      = countPending (runCycle (checkOpenAllT 1) sendAlwaysOk "" coursesTwoPending 2).courses
    ∧ (iterCycles checkOpenAllT sendAlwaysOk "" 3 1 (coursesTwoPending, 2)).2
      = countPending (iterCycles checkOpenAllT sendAlwaysOk "" 3 1 (coursesTwoPending, 2)).1 :=
  ⟨(claim5 (postAlwaysDemo 0) cfgDemo checkOpenAllT sendAlwaysOk "" coursesTwoPending 2 1 3 0
      { crn := "111", name := "Alg", found := false }).2.2.1 (by decide),
   (claim5 (postAlwaysDemo 0) cfgDemo checkOpenAllT sendAlwaysOk "" coursesTwoPending 2 1 3 0
      { crn := "111", name := "Alg", found := false }).2.2.2 (by decide)⟩

/-- Counterexample to claim C6 as stated: after the pending-to-found
transition of the only entry, the cycle run with a transport that fails the
send is indistinguishable from the one with a transport that succeeds — same
state, same counter, same observable trace, which even contains the printed
sent-confirmation line — so the failure is neither logged nor surfaced
anywhere in the cycle output. -/
theorem claim6_counterexample :
    runCycle checkOpenAll sendAlwaysFail "user@example.com" coursesOne 1
      = runCycle checkOpenAll sendAlwaysOk "user@example.com" coursesOne 1
    ∧ (runCycle checkOpenAll sendAlwaysFail "user@example.com" coursesOne 1).trace
      = demoTrace :=
  ⟨rfl, rfl⟩

/-- Claim C6 as amended: after a genuine pending-to-found transition a failed
send does not reverse the transition and is never retried — the entry ends
and stays found, and at most one send is ever attempted for it — but the
failure is silently discarded rather than logged or surfaced: the loop output
does not depend on the transport result at all. -/
theorem claim6 (checkOpen : Nat → String → Except String Bool) (send send2 : SendFn)
    (email : String) (fuel attempt : Nat) (cs : List CourseStatus) (rem k : Nat) :
    runLoop checkOpen send email fuel attempt cs rem
      = runLoop checkOpen send2 email fuel attempt cs rem
    ∧ emailCount k (runLoop checkOpen send email fuel attempt cs rem).trace ≤ 1
    ∧ (emailCount k (runLoop checkOpen send email fuel attempt cs rem).trace ≠ 0 →
        ∃ c2, (runLoop checkOpen send email fuel attempt cs rem).courses[k]? = some c2
          ∧ c2.found = true) := by
  refine ⟨runLoop_send_irrel checkOpen send send2 email fuel attempt cs rem,
    runLoop_email_le_one checkOpen send email fuel attempt cs rem k, ?_⟩
  intro h
  obtain ⟨c, _, _, c2, h2, h3⟩ := runLoop_email_pos checkOpen send email fuel attempt cs rem k h
  exact ⟨c2, h2, h3⟩

/-- Witness for claim C6 (amended) at a concrete input: with the failing
transport the loop output equals the one with the succeeding transport, and
the notified entry is found at the end. -/
theorem claim6_witness :
    runLoop checkOpenAllT sendAlwaysFail "user@example.com" 1 1 coursesOne 1
      = runLoop checkOpenAllT sendAlwaysOk "user@example.com" 1 1 coursesOne 1
    ∧ ∃ c2, (runLoop checkOpenAllT sendAlwaysFail "user@example.com"
        1 1 coursesOne 1).courses[0]? = some c2 ∧ c2.found = true := by
  have h := claim6 checkOpenAllT sendAlwaysFail sendAlwaysOk "user@example.com" 1 1 coursesOne 1 0
  exact ⟨h.1, h.2.2 (by decide)⟩

/-- Claim C7: start-up resolution walks the configured identifiers in order,
drops exactly those whose name resolution fails, appends every success as a
pending entry, and the session fails with the no-valid-CRNs error precisely
when no identifier resolves. -/
theorem claim7 (post : PostFn) (cfg : Config) :
    initCourses post cfg = cfg.crns.filterMap (resolveCourse post cfg)
    ∧ (runInit post cfg = .error "no valid CRNs to monitor"
        ↔ ∀ crn ∈ cfg.crns, resolveCourse post cfg crn = none)
    ∧ (∀ c ∈ initCourses post cfg, c.found = false) :=
  ⟨initCourses_eq_filterMap post cfg, runInit_error_iff post cfg,
    initCourses_found_false post cfg⟩

/-- Witness for claim C7 at concrete inputs: with a document that only lists
CRN 222, asking for 111 and 222 tracks exactly 222 (pending); with an HTTP
layer that always fails, the run reports the no-valid-CRNs error. -/
theorem claim7_witness :
    initCourses postOnly222 cfgTwo
      = cfgTwo.crns.filterMap (resolveCourse postOnly222 cfgTwo)
    ∧ initCourses postOnly222 cfgTwo = [{ crn := "222", name := "Calc", found := false }]
    ∧ ({ crn := "222", name := "Calc", found := false } : CourseStatus).found = false
    ∧ runInit postAlwaysError cfgTwo = .error "no valid CRNs to monitor" := by
  refine ⟨(claim7 postOnly222 cfgTwo).1, by decide, ?_, ?_⟩
  · exact (claim7 postOnly222 cfgTwo).2.2 { crn := "222", name := "Calc", found := false }
      (by decide)
  · exact (claim7 postAlwaysError cfgTwo).2.1.mpr (fun crn _ => rfl)

/-- Claim C8 evaluated against the code (the claim is false of the source):
the outcome of a run never depends on the injected EmailSender value at all —
substituting any test double changes nothing — and at a concrete input where
a seat is found with an email address configured, the single send attempt of
the session is tagged with the package-level sendEmail path, and zero send
attempts go through the injected sender. -/
theorem claim8_code_bug :
    (∀ (post : Nat → PostFn) (gsend : SendFn) (o o2 : RunOptions) (cfg : Config) (fuel : Nat),
      RunModel post gsend o cfg fuel = RunModel post gsend o2 cfg fuel)
    ∧ RunModel postAlwaysDemo envKeyMissingSend { emailSender := some sendAlwaysOk } cfgDemo 1
      = .loopResult
          { done := true
          , courses := [{ crn := "12345", name := "Intro to Testing", found := true }]
          , remaining := 0
          , trace := demoTrace }
    ∧ demoTrace.countP isInjectedEmailCall = 0
    ∧ demoTrace.countP isEmailCall = 1 := by
  refine ⟨fun post gsend o o2 cfg fuel => rfl, by decide, by decide, by decide⟩

/-- Claim C9: within one poll cycle the availability lookup is invoked
exactly once for each entry that is pending at the start of the cycle and
never for a found entry, and the lookups happen in insertion order: the
sequence of looked-up indices is exactly the increasing, duplicate-free
list of pending indices. -/
theorem claim9 (checkOpen : String → Except String Bool) (send : SendFn) (email : String)
    (cs : List CourseStatus) (rem : Nat) :
    checkedIdxs (runCycle checkOpen send email cs rem).trace = pendingIdxs 0 cs
    ∧ (checkedIdxs (runCycle checkOpen send email cs rem).trace).Nodup
    ∧ ∀ i, i ∈ checkedIdxs (runCycle checkOpen send email cs rem).trace
        ↔ ∃ c, cs[i]? = some c ∧ c.found = false := by
  have htr : (runCycle checkOpen send email cs rem).trace = cycleTrace checkOpen email 0 cs := by
    rw [runCycle_eq]
  rw [htr, checkedIdxs_cycleTrace]
  refine ⟨rfl, pendingIdxs_nodup cs 0, ?_⟩
  intro i
  rw [pendingIdxs_mem cs 0 i]
  simp

/-- Claim C10: for a Config whose BaseURL field is the empty string, name
resolution posts to the empty URL — so whenever the HTTP layer rejects the
empty URL, getCourseName always fails — while the availability check falls
back to the default timetable URL through getBaseURL and behaves exactly as
with the default configured: the two lookup variants disagree on the
base-URL default for the same Config value. -/
theorem claim10 (post : PostFn) (cfg : Config) (crn : String)
    (hbase : cfg.baseURL = "")
    (hpost : ∀ p, ∃ e, post "" p = .error e) :
    (∃ e, cfg.getCourseName post crn = .error e)
    ∧ cfg.getBaseURL = DefaultTimetableURL
    ∧ cfg.checkSectionOpen post crn
      = Config.checkSectionOpen { cfg with baseURL := DefaultTimetableURL } post crn := by
  have hgb : cfg.getBaseURL = DefaultTimetableURL := by
    unfold Config.getBaseURL
    rw [hbase]
    simp
  refine ⟨?_, hgb, ?_⟩
  · obtain ⟨e, he⟩ := hpost (cfg.buildPayload crn false)
    refine ⟨e, ?_⟩
    unfold Config.getCourseName
    rw [hbase, he]
  · unfold Config.checkSectionOpen
    rw [hgb]
    have h2 : Config.getBaseURL { cfg with baseURL := DefaultTimetableURL }
        = DefaultTimetableURL := by
      unfold Config.getBaseURL
      simp
    rw [h2]
    have h3 : Config.buildPayload { cfg with baseURL := DefaultTimetableURL } crn true
        = cfg.buildPayload crn true := rfl
    rw [h3]

/-- Witness for claim C10 at a concrete input: with an HTTP layer that
rejects every request, the empty-BaseURL config fails name resolution while
its availability check coincides with the default-URL config. -/
theorem claim10_witness :
    (∃ e, cfgEmptyBase.getCourseName postAlwaysError "12345" = .error e)
    ∧ cfgEmptyBase.getBaseURL = DefaultTimetableURL
    ∧ cfgEmptyBase.checkSectionOpen postAlwaysError "12345"
      = Config.checkSectionOpen { cfgEmptyBase with baseURL := DefaultTimetableURL }
          postAlwaysError "12345" :=
  claim10 postAlwaysError cfgEmptyBase "12345" rfl (fun _ => ⟨"request failed", rfl⟩)
